import Mathlib

/-!
Verification of the cheese-scraping pipeline (`cheese_agent.py`, `cheese_scraper.py`).

The Python code is shallowly embedded: pure computations become Lean functions,
the external collaborators (base64 decoding, PIL image opening, the rendered-page
fetch, the md5 digest, filesystem reads and path resolution) are parameters of an
environment record, and the observable filesystem side effects of the validator
are an explicit event trace.  Machine-level concerns do not arise (Python integers
are unbounded), so counters are `Nat`.
-/

set_option autoImplicit false

namespace Cheese

/-- One persisted entry of `pending_uploads`, as built in `CheeseScrapingAgent.run`
(`cheese_agent.py` lines 108-113). -/
structure QueueEntry where
  file_path : String
  public_id : String
  tags : String
  context : String
deriving Repr, DecidableEq

/-- The persistent agent state (`cheese_agent.py` `load_agent_state` default keys).
`daily_stats` maps an ISO date to the `scraped` counter of its per-day
record; Python dict insertion order is kept by using an association list. -/
structure AgentState where
  total_images_scraped : Nat
  pending_uploads : List QueueEntry
  daily_stats : List (String × Nat)
deriving Repr, DecidableEq

/-- The `default_state` dictionary of `load_agent_state`. -/
def default_state : AgentState :=
  { total_images_scraped := 0, pending_uploads := [], daily_stats := [] }

/-- A raw parse of the state file: each top-level key may be absent.
Models the JSON object produced by `json.load` when it succeeds. -/
structure RawState where
  total_images_scraped : Option Nat
  pending_uploads : Option (List QueueEntry)
  daily_stats : Option (List (String × Nat))
deriving Repr, DecidableEq

/-- `CheeseScrapingAgent.load_agent_state` (`cheese_agent.py` lines 51-70).
`fileExists` models `self.state_file.exists()`; `parsed` models the combined
outcome of `open` + `json.load` (`Except.error` when either raises, in which
case the `except` clause falls through to `return default_state`).  On a
successful parse each missing key is filled from `default_state`. -/
def load_agent_state (fileExists : Bool) (parsed : Except Unit RawState) : AgentState :=
  if fileExists then
    match parsed with
    | .ok raw =>
        { total_images_scraped := raw.total_images_scraped.getD 0
          pending_uploads := raw.pending_uploads.getD []
          daily_stats := raw.daily_stats.getD [] }
    | .error _ => default_state
  else default_state

/-- A scraper candidate as returned by `find_and_download_candidates`
(`cheese_scraper.py` lines 206-211): `metadata` is inlined as its two fields. -/
structure Candidate where
  id : String
  file_path : String
  cheese_type : String
  tags : List String
  context : List (String × String)
deriving Repr, DecidableEq

/-- Index of the last occurrence of `c` in `cs`. -/
def findLastIdx (cs : List Char) (c : Char) : Option Nat :=
  match cs with
  | [] => none
  | x :: xs =>
      match findLastIdx xs c with
      | some i => some (i + 1)
      | none => if x = c then some 0 else none

/-- The final path component, `pathlib.PurePath.name`. -/
def pathName (p : String) : String :=
  (p.splitOn "/").getLastD ""

/-- `pathlib.PurePath.stem`: the final component without its last suffix.
A dot at position 0 or at the very end of the name does not start a suffix. -/
def pathStem (p : String) : String :=
  let name := pathName p
  let cs := name.toList
  match findLastIdx cs '.' with
  | some i => if 0 < i ∧ i + 1 < cs.length then String.mk (cs.take i) else name
  | none => name

/-- The environment of one `CheeseScrapingAgent.run` call: everything the run
body observes from outside the agent state.

* `scraperOk` — whether `CheeseScraper()` construction succeeded in `__init__`
  (`self.scraper` is not `None`);
* `discovery` — the outcome of `self.scraper.find_and_download_candidates(...)`
  (`Except.error` when it raises);
* `fileBytes` — `Path(...).read_bytes()` on a candidate file (may raise);
* `md5hexBytes` — `hashlib.md5(bytes).hexdigest()`;
* `resolve` — `Path(...).resolve()` rendered as a string;
* `today` — `datetime.now().strftime` with the ISO day format. -/
structure AgentEnv where
  scraperOk : Bool
  discovery : Except Unit (List Candidate)
  fileBytes : String → Except Unit (List Nat)
  md5hexBytes : List Nat → String
  resolve : String → String
  today : String

/-- One element of `pending_list` (`cheese_agent.py` lines 103-113): the queue
entry derived from a candidate and the bytes of its saved file. -/
def mkQueueEntry (env : AgentEnv) (cand : Candidate) (bytes : List Nat) : QueueEntry :=
  let file_hash := (env.md5hexBytes bytes).take 8
  { file_path := "file://" ++ env.resolve cand.file_path
    public_id := "cheese-collection/" ++ pathStem cand.file_path ++ "_" ++ file_hash
    tags := String.intercalate "," cand.tags
    context := String.intercalate "|" (cand.context.map fun kv => kv.1 ++ "=" ++ kv.2) }

/-- The `pending_list` construction loop (`cheese_agent.py` lines 101-113).
`read_bytes` may raise, which aborts the loop with the exception propagating
to the `except` clause of `run`. -/
def buildPendingList (env : AgentEnv) : List Candidate → Except Unit (List QueueEntry)
  | [] => .ok []
  | cand :: rest =>
      match env.fileBytes cand.file_path with
      | .error e => .error e
      | .ok bytes =>
          match buildPendingList env rest with
          | .error e => .error e
          | .ok tail => .ok (mkQueueEntry env cand bytes :: tail)

/-- The dedup-merge loop (`cheese_agent.py` lines 116-122): `existing` is the
`existing_paths` set, `uploads` the `pending_uploads` list being appended to,
`added` the `new_candidates_added` counter. -/
def mergeGo (pending : List QueueEntry) (uploads : List QueueEntry)
    (existing : List String) (added : Nat) : List QueueEntry × Nat :=
  match pending with
  | [] => (uploads, added)
  | item :: rest =>
      if item.file_path ∈ existing then
        mergeGo rest uploads existing added
      else
        mergeGo rest (uploads ++ [item]) (item.file_path :: existing) (added + 1)

/-- Merge a freshly built `pending_list` into the `pending_uploads` of the state,
returning the updated uploads list and `new_candidates_added`. -/
def mergeInto (st : AgentState) (pending : List QueueEntry) : List QueueEntry × Nat :=
  mergeGo pending st.pending_uploads (st.pending_uploads.map (·.file_path)) 0

/-- The daily-stats update (`cheese_agent.py` lines 127-129): create the current-day
bucket at zero if absent (appended at the end, Python dict insertion order),
then add `n` to it.  A dict has unique keys, so updating the first match is
the dict assignment. -/
def bumpDaily : List (String × Nat) → String → Nat → List (String × Nat)
  | [], day, n => [(day, n)]
  | kv :: rest, day, n =>
      if kv.1 = day then (kv.1, kv.2 + n) :: rest
      else kv :: bumpDaily rest day n

/-- Value of a daily-stats bucket (`scraped` counter), zero when absent. -/
def dailyGet : List (String × Nat) → String → Nat
  | [], _ => 0
  | kv :: rest, day => if kv.1 = day then kv.2 else dailyGet rest day

/-- Result of one `run` call: the in-memory state at the end of the call and
whether `save_agent_state` was invoked on the way out. -/
structure RunResult where
  state : AgentState
  saved : Bool
deriving Repr, DecidableEq

/-- `CheeseScrapingAgent.run` (`cheese_agent.py` lines 80-142) acting on the
loaded state `st`.

* `self.scraper` falsy: the early `return` on line 86 fires before the
  `try`/`finally`, so nothing is saved;
* the `try` body: discovery, the empty-candidates early `return` (line 96),
  `pending_list` construction, the dedup merge, and the counter updates;
  any exception is caught by the `except` clause (line 139);
* the `finally` clause (line 141) invokes `save_agent_state` on every exit
  path of the `try` statement. -/
def run (env : AgentEnv) (st : AgentState) : RunResult :=
  if env.scraperOk then
    match env.discovery with
    | .error _ => { state := st, saved := true }
    | .ok candidates =>
        if candidates.isEmpty then { state := st, saved := true }
        else
          match buildPendingList env candidates with
          | .error _ => { state := st, saved := true }
          | .ok pending =>
              let merged := mergeInto st pending
              let st1 : AgentState :=
                { total_images_scraped := st.total_images_scraped + merged.2
                  pending_uploads := merged.1
                  daily_stats := bumpDaily st.daily_stats env.today merged.2 }
              { state := st1, saved := true }
  else { state := st, saved := false }

/-- One scheduled invocation against the state file: a fresh agent loads the
file (`loadOk` false models an unreadable/unparsable file, which
`load_agent_state` replaces by `default_state`), then `run` executes and the
`finally` clause persists.  The value returned is the persisted state. -/
structure CycleEnv where
  loadOk : Bool
  env : AgentEnv

/-- Execute one load/run/persist cycle on the current state-file contents. -/
def runCycle (c : CycleEnv) (fileState : AgentState) : AgentState :=
  let loaded := if c.loadOk then fileState else default_state
  (run c.env loaded).state

/-- A sequence of runs against the same state file, starting from an absent
file (so the first load yields `default_state`). -/
def runSequence (cycles : List CycleEnv) : AgentState :=
  cycles.foldl (fun s c => runCycle c s) default_state

/-- The dedup invariant on a state: no two `pending_uploads` entries share a
`file_path` URI. -/
def pendingNodup (st : AgentState) : Prop :=
  (st.pending_uploads.map (·.file_path)).Nodup

instance (st : AgentState) : Decidable (pendingNodup st) := by
  unfold pendingNodup; infer_instance

/-- An observable filesystem effect of `save_base64_image`. -/
inductive FsEvent where
  | write (path : String) (data : List Nat)
  | unlink (path : String)
deriving Repr, DecidableEq

/-- The external collaborators of `CheeseScraper`:

* `b64decode` — `base64.b64decode` on the encoded body (`Except.error` when it
  raises, e.g. on invalid padding);
* `imageOpen` — `PIL.Image.open` applied to the freshly written file, returning
  the intrinsic `(width, height)` or raising when the bytes are not an image;
* `scrape` — `scrape_image_data` for a category (that method already catches its
  own errors and returns a plain list of data-URI strings);
* `md5hexStr` — `hashlib.md5(s.encode()).hexdigest()`;
* `today` — `datetime.now().strftime` with the ISO day format, used by
  `analyze_image_content`. -/
structure ScrEnv where
  b64decode : String → Except Unit (List Nat)
  imageOpen : List Nat → Except Unit (Nat × Nat)
  scrape : String → List String
  md5hexStr : String → String
  today : String

/-- The configuration fixed in `CheeseScraper.__init__`
(`cheese_scraper.py` lines 43-59). -/
structure Scraper where
  output_dir : String
  cheese_types : List String
  min_width : Nat
  min_height : Nat
  max_file_size : Nat
deriving Repr, DecidableEq

/-- The concrete `CheeseScraper` instance. -/
def defaultScraper : Scraper :=
  { output_dir := "scraped_cheese_images"
    cheese_types := ["semi soft", "bloomy", "blue", "hard", "washed rind", "fresh"]
    min_width := 100
    min_height := 100
    max_file_size := 10 * 1024 * 1024 }

/-- Split a character list at the first comma: the pieces before and after it,
or `none` when no comma occurs.  Models `str.split(",", 1)` followed by the
two-name unpacking, which raises `ValueError` in the `none` case. -/
def splitFirstComma : List Char → Option (List Char × List Char)
  | [] => none
  | c :: cs =>
      if c = ',' then some ([], cs)
      else
        match splitFirstComma cs with
        | none => none
        | some (a, b) => some (c :: a, b)

/-- `base64_data.split(",", 1)` unpacked as `header, encoded`. -/
def splitHeaderBody (s : String) : Option (String × String) :=
  match splitFirstComma s.toList with
  | none => none
  | some (a, b) => some (String.mk a, String.mk b)

/-- `CheeseScraper.save_base64_image` (`cheese_scraper.py` lines 121-146).
Returns the saved path (or `none` on any rejection) paired with the trace of
filesystem effects.  The `try` wraps everything: the missing-separator
`ValueError` and a `b64decode` failure are caught before any write; a size
violation returns before any write; an `Image.open` failure after the write is
caught, leaving the written file in place; an undersized image is unlinked. -/
def save_base64_image (env : ScrEnv) (sc : Scraper) (base64_data filename : String) :
    Option String × List FsEvent :=
  match splitHeaderBody base64_data with
  | none => (none, [])
  | some (_, encoded) =>
      match env.b64decode encoded with
      | .error _ => (none, [])
      | .ok image_data =>
          if image_data.length > sc.max_file_size then (none, [])
          else
            let file_path := sc.output_dir ++ "/" ++ filename
            match env.imageOpen image_data with
            | .error _ => (none, [.write file_path image_data])
            | .ok wh =>
                if wh.1 < sc.min_width ∨ wh.2 < sc.min_height then
                  (none, [.write file_path image_data, .unlink file_path])
                else
                  (some file_path, [.write file_path image_data])

/-- `CheeseScraper.analyze_image_content` (`cheese_scraper.py` lines 148-157). -/
def analyze_image_content (env : ScrEnv) (cheese_type : String) :
    List String × List (String × String) :=
  (["cheese", cheese_type],
   [("source", "google-images"), ("license", "creative-commons"),
    ("scrape_date", env.today)])

/-- `str.replace(' ', '_')`: every space becomes an underscore (a single-char
pattern replacement is a character map). -/
def replaceSpaces (s : String) : String :=
  String.mk (s.toList.map fun x => if x = ' ' then '_' else x)

/-- The filename derivation of `find_and_download_candidates`
(`cheese_scraper.py` lines 196-197). -/
def candidateFilename (env : ScrEnv) (cheese_type b64_data : String) : String :=
  replaceSpaces cheese_type ++ "_" ++ (env.md5hexStr b64_data).take 10 ++ ".jpg"

/-- The inner per-payload loop of `find_and_download_candidates`
(`cheese_scraper.py` lines 191-216), threading the accumulated candidate list
and the event trace. -/
def processPayloads (env : ScrEnv) (sc : Scraper) (cheese_type : String)
    (max_total : Nat) :
    List String → List Candidate → List FsEvent → List Candidate × List FsEvent
  | [], found, evs => (found, evs)
  | b64 :: rest, found, evs =>
      if found.length ≥ max_total then (found, evs)
      else
        let filename := candidateFilename env cheese_type b64
        let saved := save_base64_image env sc b64 filename
        match saved.1 with
        | none => processPayloads env sc cheese_type max_total rest found (evs ++ saved.2)
        | some file_path =>
            let meta := analyze_image_content env cheese_type
            let cand : Candidate :=
              { id := filename, file_path := file_path, cheese_type := cheese_type
                tags := meta.1, context := meta.2 }
            processPayloads env sc cheese_type max_total rest (found ++ [cand])
              (evs ++ saved.2)

/-- The outer per-category loop of `find_and_download_candidates`
(`cheese_scraper.py` lines 180-220). -/
def processCategories (env : ScrEnv) (sc : Scraper) (max_total : Nat)
    (per_type : Nat) :
    List String → List Candidate → List FsEvent → List Candidate × List FsEvent
  | [], found, evs => (found, evs)
  | ct :: rest, found, evs =>
      if found.length ≥ max_total then (found, evs)
      else
        let payloads := (env.scrape ct).take per_type
        let r := processPayloads env sc ct max_total payloads found evs
        processCategories env sc max_total per_type rest r.1 r.2

/-- `CheeseScraper.find_and_download_candidates` (`cheese_scraper.py` lines
171-223).  `images_per_type = max_total_images // len(cheese_types) + 1`;
`scrape_image_data` truncates its output to that many payloads (line 112). -/
def find_and_download_candidates (env : ScrEnv) (sc : Scraper)
    (max_total_images : Nat) : List Candidate × List FsEvent :=
  let per_type := max_total_images / sc.cheese_types.length + 1
  processCategories env sc max_total_images per_type sc.cheese_types [] []

/-! ### Lemmas about the dedup merge -/

/-- The merge loop keeps the uploads list free of duplicate `file_path` keys,
provided every key already present is recorded in `existing`. -/
theorem mergeGo_nodup (pending : List QueueEntry) :
    ∀ (uploads : List QueueEntry) (existing : List String) (added : Nat),
    (uploads.map (·.file_path)).Nodup →
    (∀ p ∈ uploads.map (·.file_path), p ∈ existing) →
    ((mergeGo pending uploads existing added).1.map (·.file_path)).Nodup := by
  induction pending with
  | nil =>
      intro uploads existing added h1 _
      simpa [mergeGo] using h1
  | cons item rest ih =>
      intro uploads existing added h1 h2
      by_cases hmem : item.file_path ∈ existing
      · simpa [mergeGo, hmem] using ih uploads existing added h1 h2
      · simp only [mergeGo, hmem, if_pos, if_neg, not_false_iff]
        apply ih
        · rw [List.map_append]
          rw [List.nodup_append]
          refine ⟨h1, List.nodup_singleton _, ?_⟩
          intro p hp
          simp only [List.map_cons, List.map_nil, List.mem_singleton]
          intro hq
          exact hmem (hq ▸ h2 p hp)
        · intro p hp
          rw [List.map_append] at hp
          rcases List.mem_append.mp hp with hp | hp
          · exact List.mem_cons_of_mem _ (h2 p hp)
          · simp only [List.map_cons, List.map_nil, List.mem_singleton] at hp
            exact hp ▸ List.mem_cons_self _ _

/-- `mergeInto` preserves the dedup invariant of the state. -/
theorem mergeInto_nodup (st : AgentState) (pending : List QueueEntry)
    (h : pendingNodup st) : ((mergeInto st pending).1.map (·.file_path)).Nodup := by
  exact mergeGo_nodup pending st.pending_uploads (st.pending_uploads.map (·.file_path)) 0
    h (fun p hp => hp)

/-- A single `run` preserves the dedup invariant. -/
theorem run_preserves_nodup (env : AgentEnv) (st : AgentState)
    (h : pendingNodup st) : pendingNodup (run env st).state := by
  unfold run
  by_cases hok : env.scraperOk
  · simp only [hok, if_pos]
    cases hd : env.discovery with
    | error e => exact h
    | ok candidates =>
        by_cases he : candidates.isEmpty
        · simp only [he, if_pos]; exact h
        · simp only [he, if_neg, Bool.false_eq_true, not_false_iff]
          cases hb : buildPendingList env candidates with
          | error e => exact h
          | ok pending =>
              exact mergeInto_nodup st pending h
  · simp only [hok, if_neg, not_false_iff]
    exact h

/-- A full load/run/persist cycle preserves the dedup invariant. -/
theorem runCycle_preserves_nodup (c : CycleEnv) (st : AgentState)
    (h : pendingNodup st) : pendingNodup (runCycle c st) := by
  unfold runCycle
  by_cases hl : c.loadOk
  · simp only [hl, if_pos]; exact run_preserves_nodup c.env st h
  · simp only [hl, if_neg, not_false_iff]
    exact run_preserves_nodup c.env default_state (by decide)

theorem foldl_cycles_nodup (cycles : List CycleEnv) :
    ∀ st : AgentState, pendingNodup st →
      pendingNodup (cycles.foldl (fun s c => runCycle c s) st) := by
  induction cycles with
  | nil => intro st h; simpa using h
  | cons c rest ih =>
      intro st h
      simp only [List.foldl_cons]
      exact ih _ (runCycle_preserves_nodup c st h)

/-- C1: for every sequence of runs of `CheeseScrapingAgent.run()` against the
same state file, the persisted `pending_uploads` list never contains two
entries with equal `file_path` URI — even when the discovery step returns
candidates whose derived URIs already occur in the loaded state or occur more
than once within the candidate list of a single run (the quantification over `cycles`
covers every such discovery outcome). -/
theorem dedup_invariant (cycles : List CycleEnv) :
    pendingNodup (runSequence cycles) := by
  unfold runSequence
  exact foldl_cycles_nodup cycles default_state (by decide)

/-! ### Lemmas about the counters -/

/-- The merge loop appends exactly as many entries as it counts in
`new_candidates_added`. -/
theorem mergeGo_length (pending : List QueueEntry) :
    ∀ (uploads : List QueueEntry) (existing : List String) (added : Nat),
    (mergeGo pending uploads existing added).1.length + added
      = uploads.length + (mergeGo pending uploads existing added).2 := by
  induction pending with
  | nil => intro uploads existing added; simp [mergeGo]
  | cons item rest ih =>
      intro uploads existing added
      by_cases hmem : item.file_path ∈ existing
      · simp only [mergeGo, hmem, if_pos]
        exact ih uploads existing added
      · simp only [mergeGo, hmem, if_neg, not_false_iff]
        have h := ih (uploads ++ [item]) (item.file_path :: existing) (added + 1)
        simp only [List.length_append, List.length_singleton] at h
        omega

/-- `mergeInto` grows `pending_uploads` by exactly `new_candidates_added`. -/
theorem mergeInto_length (st : AgentState) (pending : List QueueEntry) :
    (mergeInto st pending).1.length
      = st.pending_uploads.length + (mergeInto st pending).2 := by
  have h := mergeGo_length pending st.pending_uploads
    (st.pending_uploads.map (·.file_path)) 0
  simpa [mergeInto] using h

/-- Bumping a bucket adds exactly `n` to its value. -/
theorem dailyGet_bumpDaily (stats : List (String × Nat)) (day : String) (n : Nat) :
    dailyGet (bumpDaily stats day n) day = dailyGet stats day + n := by
  induction stats with
  | nil => simp [bumpDaily, dailyGet]
  | cons kv rest ih =>
      by_cases hk : kv.1 = day
      · simp [bumpDaily, dailyGet, hk]
      · simp [bumpDaily, dailyGet, hk, ih]

/-- Bumping a bucket makes its key present. -/
theorem bumpDaily_mem (stats : List (String × Nat)) (day : String) (n : Nat) :
    day ∈ (bumpDaily stats day n).map Prod.fst := by
  induction stats with
  | nil => simp [bumpDaily]
  | cons kv rest ih =>
      by_cases hk : kv.1 = day
      · simp [bumpDaily, hk]
      · simp only [bumpDaily, hk, if_neg, not_false_iff, List.map_cons, List.mem_cons]
        exact Or.inr ih

/-- C2: in every run that completes its merge step, `total_images_scraped`
does not decrease, and both it and the current-day `daily_stats` bucket (created if
absent) grow by exactly the number of entries actually appended to
`pending_uploads` in that run — the merge counter `new_candidates_added`,
which also equals the growth of `pending_uploads` — not by the number of
discovered candidates. -/
theorem run_merge_counts (env : AgentEnv) (st : AgentState)
    (cs : List Candidate) (pending : List QueueEntry)
    (h1 : env.scraperOk = true) (h2 : env.discovery = Except.ok cs)
    (h3 : cs ≠ []) (h4 : buildPendingList env cs = Except.ok pending) :
    st.total_images_scraped ≤ (run env st).state.total_images_scraped
    ∧ (run env st).state.pending_uploads.length
        = st.pending_uploads.length + (mergeInto st pending).2
    ∧ (run env st).state.total_images_scraped
        = st.total_images_scraped + (mergeInto st pending).2
    ∧ env.today ∈ ((run env st).state.daily_stats.map Prod.fst)
    ∧ dailyGet (run env st).state.daily_stats env.today
        = dailyGet st.daily_stats env.today + (mergeInto st pending).2 := by
  have hne : cs.isEmpty = false := by
    cases cs with
    | nil => exact absurd rfl h3
    | cons a l => rfl
  have hrun : run env st =
      { state :=
          { total_images_scraped := st.total_images_scraped + (mergeInto st pending).2
            pending_uploads := (mergeInto st pending).1
            daily_stats := bumpDaily st.daily_stats env.today (mergeInto st pending).2 }
        saved := true } := by
    unfold run
    rw [h1, h2]
    simp [hne, h4]
  rw [hrun]
  refine ⟨Nat.le_add_right _ _, mergeInto_length st pending, rfl, ?_, ?_⟩
  · exact bumpDaily_mem st.daily_stats env.today _
  · exact dailyGet_bumpDaily st.daily_stats env.today _

/-- Concrete candidate used by the witnesses. -/
def wCand : Candidate :=
  { id := "hard_0123456789.jpg"
    file_path := "scraped_cheese_images/hard_0123456789.jpg"
    cheese_type := "hard"
    tags := ["cheese", "hard"]
    context := [("source", "google-images"), ("license", "creative-commons"),
                ("scrape_date", "2026-10-12")] }

/-- Concrete agent environment used by the witnesses: the scraper constructed,
discovery returned one candidate, its file reads as three bytes. -/
def wEnv : AgentEnv :=
  { scraperOk := true
    discovery := .ok [wCand]
    fileBytes := fun _ => .ok [1, 2, 3]
    md5hexBytes := fun _ => "fedcba9876543210"
    resolve := fun p => "/repo/" ++ p
    today := "2026-10-12" }

/-- The pending list the witness run builds. -/
def wPending : List QueueEntry := [mkQueueEntry wEnv wCand [1, 2, 3]]

theorem run_merge_counts_witness :
    wEnv.scraperOk = true ∧ wEnv.discovery = Except.ok [wCand]
    ∧ [wCand] ≠ ([] : List Candidate)
    ∧ buildPendingList wEnv [wCand] = Except.ok wPending
    ∧ (default_state.total_images_scraped
          ≤ (run wEnv default_state).state.total_images_scraped
      ∧ (run wEnv default_state).state.pending_uploads.length
          = default_state.pending_uploads.length
            + (mergeInto default_state wPending).2
      ∧ (run wEnv default_state).state.total_images_scraped
          = default_state.total_images_scraped
            + (mergeInto default_state wPending).2
      ∧ wEnv.today ∈ ((run wEnv default_state).state.daily_stats.map Prod.fst)
      ∧ dailyGet (run wEnv default_state).state.daily_stats wEnv.today
          = dailyGet default_state.daily_stats wEnv.today
            + (mergeInto default_state wPending).2) :=
  ⟨rfl, rfl, by simp, rfl,
    run_merge_counts wEnv default_state [wCand] wPending rfl rfl (by simp) rfl⟩

/-! ### The no-scraper path and the persistence guarantee -/

/-- Concrete environment in which `CheeseScraper()` construction failed
(`self.scraper is None`). -/
def noScraperEnv : AgentEnv :=
  { scraperOk := false
    discovery := .ok []
    fileBytes := fun _ => .ok []
    md5hexBytes := fun _ => ""
    resolve := fun p => p
    today := "2026-10-12" }

/-- C3 counterexample: with the scraper unavailable, `run` leaves the loaded
state untouched but `save_agent_state` is never invoked — the early `return`
on line 86 of `cheese_agent.py` precedes the `try`/`finally`, so no persist of
the unchanged loaded state occurs, contrary to the claim. -/
theorem no_save_when_scraper_missing :
    (run noScraperEnv default_state).saved = false
    ∧ (run noScraperEnv default_state).state = default_state :=
  ⟨rfl, rfl⟩

/-- C3 amended: when the scraper component cannot be constructed, `run()`
aborts without mutating the loaded state and without persisting it — no write
of the state file happens on this path. -/
theorem abort_no_scraper (env : AgentEnv) (st : AgentState)
    (h : env.scraperOk = false) :
    run env st = { state := st, saved := false } := by
  unfold run
  rw [h]
  simp

theorem abort_no_scraper_witness :
    noScraperEnv.scraperOk = false
    ∧ run noScraperEnv default_state = { state := default_state, saved := false } :=
  ⟨rfl, abort_no_scraper noScraperEnv default_state rfl⟩

/-- C4: whenever the scraper was constructed, the `finally` clause persists the
in-memory state on every exit path of the run body — after normal completion,
after the empty-candidates early return, and after an exception during
discovery or during the merge preparation (the proof is a case analysis over
exactly these paths). -/
theorem run_always_saves (env : AgentEnv) (st : AgentState)
    (h : env.scraperOk = true) : (run env st).saved = true := by
  unfold run
  rw [h]
  cases hd : env.discovery with
  | error e => simp
  | ok candidates =>
      by_cases he : candidates.isEmpty
      · simp [he]
      · cases hb : buildPendingList env candidates with
        | error e => simp [he, hb]
        | ok pending => simp [he, hb]

/-- Concrete environment whose discovery step raises. -/
def errDiscoveryEnv : AgentEnv :=
  { scraperOk := true
    discovery := .error ()
    fileBytes := fun _ => .error ()
    md5hexBytes := fun _ => ""
    resolve := fun p => p
    today := "2026-10-12" }

theorem run_always_saves_witness :
    errDiscoveryEnv.scraperOk = true
    ∧ (run errDiscoveryEnv default_state).saved = true :=
  ⟨rfl, run_always_saves errDiscoveryEnv default_state rfl⟩

/-! ### Validator claims -/

/-- C5: a payload whose decoded body exceeds 10 MiB is rejected with no
filesystem effect at all — in particular no write precedes the size check. -/
theorem save_rejects_oversize (env : ScrEnv) (payload filename hd enc : String)
    (data : List Nat)
    (h1 : splitHeaderBody payload = some (hd, enc))
    (h2 : env.b64decode enc = Except.ok data)
    (h3 : data.length > 10 * 1024 * 1024) :
    save_base64_image env defaultScraper payload filename = (none, []) := by
  simp [save_base64_image, h1, h2, defaultScraper, h3]

/-- Environment decoding every body to an 11 MiB byte string. -/
def bigPayloadEnv : ScrEnv :=
  { b64decode := fun _ => .ok (List.replicate (11 * 1024 * 1024) 0)
    imageOpen := fun _ => .ok (200, 200)
    scrape := fun _ => []
    md5hexStr := fun _ => "0123456789abcdef"
    today := "2026-10-12" }

theorem save_rejects_oversize_witness :
    splitHeaderBody "data:image/jpeg;base64,AAAA"
      = some ("data:image/jpeg;base64", "AAAA")
    ∧ bigPayloadEnv.b64decode "AAAA"
        = Except.ok (List.replicate (11 * 1024 * 1024) 0)
    ∧ (List.replicate (11 * 1024 * 1024) (0 : Nat)).length > 10 * 1024 * 1024
    ∧ save_base64_image bigPayloadEnv defaultScraper
        "data:image/jpeg;base64,AAAA" "big.jpg" = (none, []) :=
  ⟨rfl, rfl, by rw [List.length_replicate]; norm_num,
    save_rejects_oversize bigPayloadEnv "data:image/jpeg;base64,AAAA" "big.jpg"
      "data:image/jpeg;base64" "AAAA" (List.replicate (11 * 1024 * 1024) 0)
      rfl rfl (by rw [List.length_replicate]; norm_num)⟩

/-- C6: after a successful decode and write, the image is re-opened; a width
or height below 100 deletes the file and rejects, while 100-or-larger in both
dimensions accepts and returns the path (with the file left in place). -/
theorem save_dimension_floor (env : ScrEnv) (payload filename hd enc : String)
    (data : List Nat) (w h : Nat)
    (h1 : splitHeaderBody payload = some (hd, enc))
    (h2 : env.b64decode enc = Except.ok data)
    (h3 : ¬ data.length > 10 * 1024 * 1024)
    (h4 : env.imageOpen data = Except.ok (w, h)) :
    (w < 100 ∨ h < 100 →
      save_base64_image env defaultScraper payload filename
        = (none, [FsEvent.write ("scraped_cheese_images/" ++ filename) data,
                  FsEvent.unlink ("scraped_cheese_images/" ++ filename)]))
    ∧ (100 ≤ w ∧ 100 ≤ h →
      save_base64_image env defaultScraper payload filename
        = (some ("scraped_cheese_images/" ++ filename),
           [FsEvent.write ("scraped_cheese_images/" ++ filename) data])) := by
  constructor
  · intro hwh
    simp [save_base64_image, h1, h2, defaultScraper, h3, h4, hwh]
  · intro hwh
    have hnot : ¬ (w < 100 ∨ h < 100) := by omega
    simp [save_base64_image, h1, h2, defaultScraper, h3, h4, hnot]

/-- Environment whose written file re-opens as a 50×50 image. -/
def smallImageEnv : ScrEnv :=
  { b64decode := fun _ => .ok [7]
    imageOpen := fun _ => .ok (50, 50)
    scrape := fun _ => []
    md5hexStr := fun _ => "0123456789abcdef"
    today := "2026-10-12" }

/-- Environment whose written file re-opens as a 200×200 image. -/
def largeImageEnv : ScrEnv :=
  { b64decode := fun _ => .ok [7]
    imageOpen := fun _ => .ok (200, 200)
    scrape := fun _ => []
    md5hexStr := fun _ => "0123456789abcdef"
    today := "2026-10-12" }

theorem save_dimension_floor_witness :
    save_base64_image smallImageEnv defaultScraper
        "data:image/jpeg;base64,AAAA" "small.jpg"
      = (none, [FsEvent.write "scraped_cheese_images/small.jpg" [7],
                FsEvent.unlink "scraped_cheese_images/small.jpg"])
    ∧ save_base64_image largeImageEnv defaultScraper
        "data:image/jpeg;base64,AAAA" "large.jpg"
      = (some "scraped_cheese_images/large.jpg",
         [FsEvent.write "scraped_cheese_images/large.jpg" [7]]) :=
  ⟨(save_dimension_floor smallImageEnv "data:image/jpeg;base64,AAAA" "small.jpg"
      "data:image/jpeg;base64" "AAAA" [7] 50 50 rfl rfl (by simp) rfl).1
      (Or.inl (by omega)),
   (save_dimension_floor largeImageEnv "data:image/jpeg;base64,AAAA" "large.jpg"
      "data:image/jpeg;base64" "AAAA" [7] 200 200 rfl rfl (by simp) rfl).2
      ⟨by omega, by omega⟩⟩

/-- C7: a malformed payload — no separator, or a body the decoder raises on —
is rejected with no filesystem effect, and the discovery loop skips it without
adding a candidate and without aborting (the remaining payloads are processed
exactly as if the malformed one were absent). -/
theorem save_rejects_malformed (env : ScrEnv) (payload filename : String)
    (h : splitHeaderBody payload = none
       ∨ ∃ p : String × String, splitHeaderBody payload = some p
           ∧ env.b64decode p.2 = Except.error ()) :
    save_base64_image env defaultScraper payload filename = (none, [])
    ∧ ∀ (ct : String) (max_total : Nat) (rest : List String)
        (found : List Candidate) (evs : List FsEvent),
        found.length < max_total →
        processPayloads env defaultScraper ct max_total (payload :: rest) found evs
          = processPayloads env defaultScraper ct max_total rest found evs := by
  have hrej : ∀ fn : String,
      save_base64_image env defaultScraper payload fn = (none, []) := by
    intro fn
    rcases h with hnone | ⟨p, hsome, hdec⟩
    · simp [save_base64_image, hnone]
    · simp [save_base64_image, hsome, hdec]
  refine ⟨hrej filename, ?_⟩
  intro ct max_total rest found evs hlt
  have hge : ¬ found.length ≥ max_total := by omega
  simp [processPayloads, hge, hrej]

theorem save_rejects_malformed_witness :
    splitHeaderBody "no separator at all" = none
    ∧ save_base64_image largeImageEnv defaultScraper "no separator at all"
        "mal.jpg" = (none, [])
    ∧ processPayloads largeImageEnv defaultScraper "hard" 5
        ["no separator at all"] [] []
      = processPayloads largeImageEnv defaultScraper "hard" 5 [] [] [] :=
  ⟨rfl,
   (save_rejects_malformed largeImageEnv "no separator at all" "mal.jpg"
      (Or.inl rfl)).1,
   (save_rejects_malformed largeImageEnv "no separator at all" "mal.jpg"
      (Or.inl rfl)).2 "hard" 5 [] [] [] (by simp)⟩

/-! ### Filename derivation in the discovery loop -/

/-- Environment whose "semi soft" search yields one payload and whose validator
accepts everything. -/
def c8Env : ScrEnv :=
  { b64decode := fun _ => .ok [7]
    imageOpen := fun _ => .ok (200, 200)
    scrape := fun ct => if ct = "semi soft" then ["data:image/jpeg;base64,AAAA"] else []
    md5hexStr := fun _ => "0123456789abcdef"
    today := "2026-10-12" }

/-- C8 counterexample: for the category `"semi soft"` the filename handed to
the validator (and recorded as the candidate id) has the space replaced by an
underscore, so it is not `<category>_<hash>.jpg` with the literal category
name, contrary to the claim. -/
theorem filename_format_cex :
    (find_and_download_candidates c8Env defaultScraper 1).1.map (·.id)
      = ["semi_soft_0123456789.jpg"]
    ∧ "semi_soft_0123456789.jpg"
        ≠ "semi soft" ++ "_"
          ++ (c8Env.md5hexStr "data:image/jpeg;base64,AAAA").take 10 ++ ".jpg" := by
  constructor
  · rfl
  · decide

/-- Every candidate the per-payload loop adds carries the derived filename of
one of its payloads as its id. -/
theorem processPayloads_shape (env : ScrEnv) (sc : Scraper) (ct : String)
    (max_total : Nat) :
    ∀ (payloads : List String) (found : List Candidate) (evs : List FsEvent),
    ∀ c ∈ (processPayloads env sc ct max_total payloads found evs).1,
      c ∈ found ∨ (c.cheese_type = ct ∧ ∃ payload ∈ payloads,
        c.id = candidateFilename env ct payload) := by
  intro payloads
  induction payloads with
  | nil =>
      intro found evs c hc
      exact Or.inl (by simpa [processPayloads] using hc)
  | cons b64 rest ih =>
      intro found evs c hc
      by_cases hfull : found.length ≥ max_total
      · simp only [processPayloads, hfull, if_pos] at hc
        exact Or.inl hc
      · simp only [processPayloads, hfull, if_neg, not_false_iff] at hc
        cases hsv : (save_base64_image env sc b64 (candidateFilename env ct b64)).1 with
        | none =>
            rw [hsv] at hc
            rcases ih found (evs ++ (save_base64_image env sc b64
                (candidateFilename env ct b64)).2) c hc with h | ⟨hct, p, hp, hid⟩
            · exact Or.inl h
            · exact Or.inr ⟨hct, p, List.mem_cons_of_mem _ hp, hid⟩
        | some fp =>
            rw [hsv] at hc
            rcases ih (found ++ [⟨candidateFilename env ct b64, fp, ct,
                (analyze_image_content env ct).1, (analyze_image_content env ct).2⟩])
                (evs ++ (save_base64_image env sc b64
                  (candidateFilename env ct b64)).2) c hc with h | ⟨hct, p, hp, hid⟩
            · rcases List.mem_append.mp h with h | h
              · exact Or.inl h
              · rcases List.mem_singleton.mp h with rfl
                exact Or.inr ⟨rfl, b64, List.mem_cons_self _ _, rfl⟩
            · exact Or.inr ⟨hct, p, List.mem_cons_of_mem _ hp, hid⟩

/-- Every candidate the per-category loop adds stems from a payload of its own
own category scrape, under the derived filename. -/
theorem processCategories_shape (env : ScrEnv) (sc : Scraper) (max_total : Nat)
    (per_type : Nat) :
    ∀ (cats : List String) (found : List Candidate) (evs : List FsEvent),
    ∀ c ∈ (processCategories env sc max_total per_type cats found evs).1,
      c ∈ found ∨ (c.cheese_type ∈ cats ∧ ∃ payload ∈ env.scrape c.cheese_type,
        c.id = candidateFilename env c.cheese_type payload) := by
  intro cats
  induction cats with
  | nil =>
      intro found evs c hc
      exact Or.inl (by simpa [processCategories] using hc)
  | cons ct rest ih =>
      intro found evs c hc
      by_cases hfull : found.length ≥ max_total
      · simp only [processCategories, hfull, if_pos] at hc
        exact Or.inl hc
      · simp only [processCategories, hfull, if_neg, not_false_iff] at hc
        rcases ih _ _ c hc with h | ⟨hmem, p, hp, hid⟩
        · rcases processPayloads_shape env sc ct max_total
            ((env.scrape ct).take per_type) found evs c h with h | ⟨hct, p, hp, hid⟩
          · exact Or.inl h
          · refine Or.inr ⟨hct ▸ List.mem_cons_self _ _, p, ?_, ?_⟩
            · exact hct ▸ List.mem_of_mem_take hp
            · exact hct ▸ hid
        · exact Or.inr ⟨List.mem_cons_of_mem _ hmem, p, hp, hid⟩

/-- C8 amended: the filename passed to the validator — which also becomes the
candidate id — is the category name *with spaces replaced by underscores*,
followed by an underscore, the first 10 hex characters of the hash of the
payload string, and `.jpg` (so identical payloads still map to the same
filename); and a payload the validator rejects is skipped without aborting the
loop, the remaining payloads being processed as if it were absent. -/
theorem filename_format (env : ScrEnv) (sc : Scraper) (n : Nat) :
    (∀ c ∈ (find_and_download_candidates env sc n).1,
      c.cheese_type ∈ sc.cheese_types ∧
      ∃ payload ∈ env.scrape c.cheese_type,
        c.id = replaceSpaces c.cheese_type ++ "_"
          ++ (env.md5hexStr payload).take 10 ++ ".jpg")
    ∧ (∀ (ct : String) (max_total : Nat) (b64 : String) (rest : List String)
        (found : List Candidate) (evs : List FsEvent),
        found.length < max_total →
        (save_base64_image env sc b64 (candidateFilename env ct b64)).1 = none →
        processPayloads env sc ct max_total (b64 :: rest) found evs
          = processPayloads env sc ct max_total rest found
              (evs ++ (save_base64_image env sc b64 (candidateFilename env ct b64)).2)) := by
  constructor
  · intro c hc
    rcases processCategories_shape env sc n (n / sc.cheese_types.length + 1)
        sc.cheese_types [] [] c hc with h | ⟨hmem, p, hp, hid⟩
    · simp at h
    · exact ⟨hmem, p, hp, hid⟩
  · intro ct max_total b64 rest found evs hlt hrej
    have hge : ¬ found.length ≥ max_total := by omega
    simp only [processPayloads, hge, if_neg, not_false_iff]
    rw [hrej]

theorem filename_format_witness :
    (∀ c ∈ (find_and_download_candidates c8Env defaultScraper 1).1,
      c.cheese_type ∈ defaultScraper.cheese_types ∧
      ∃ payload ∈ c8Env.scrape c.cheese_type,
        c.id = replaceSpaces c.cheese_type ++ "_"
          ++ (c8Env.md5hexStr payload).take 10 ++ ".jpg")
    ∧ processPayloads smallImageEnv defaultScraper "hard" 5
        ["data:image/jpeg;base64,AAAA"] [] []
      = processPayloads smallImageEnv defaultScraper "hard" 5 [] []
          ([] ++ (save_base64_image smallImageEnv defaultScraper
              "data:image/jpeg;base64,AAAA"
              (candidateFilename smallImageEnv "hard" "data:image/jpeg;base64,AAAA")).2) :=
  ⟨(filename_format c8Env defaultScraper 1).1,
   (filename_format smallImageEnv defaultScraper 0).2 "hard" 5
      "data:image/jpeg;base64,AAAA" [] [] [] (by simp) rfl⟩

/-! ### Shape of merged queue entries -/

/-- The merge loop only ever contains entries it started with or entries of
the incoming pending list. -/
theorem mergeGo_mem (pending : List QueueEntry) :
    ∀ (uploads : List QueueEntry) (existing : List String) (added : Nat),
    ∀ e ∈ (mergeGo pending uploads existing added).1,
      e ∈ uploads ∨ e ∈ pending := by
  induction pending with
  | nil =>
      intro uploads existing added e he
      exact Or.inl (by simpa [mergeGo] using he)
  | cons item rest ih =>
      intro uploads existing added e he
      by_cases hmem : item.file_path ∈ existing
      · simp only [mergeGo, hmem, if_pos] at he
        rcases ih uploads existing added e he with h | h
        · exact Or.inl h
        · exact Or.inr (List.mem_cons_of_mem _ h)
      · simp only [mergeGo, hmem, if_neg, not_false_iff] at he
        rcases ih (uploads ++ [item]) (item.file_path :: existing) (added + 1) e he
            with h | h
        · rcases List.mem_append.mp h with h | h
          · exact Or.inl h
          · rcases List.mem_singleton.mp h with rfl
            exact Or.inr (List.mem_cons_self _ _)
        · exact Or.inr (List.mem_cons_of_mem _ h)

/-- Every entry of a successfully built pending list is the queue entry derived
from one of the candidates and the bytes of its file. -/
theorem buildPendingList_mem (env : AgentEnv) :
    ∀ (cs : List Candidate) (pending : List QueueEntry),
    buildPendingList env cs = Except.ok pending →
    ∀ q ∈ pending, ∃ cand, cand ∈ cs ∧ ∃ bytes,
      env.fileBytes cand.file_path = Except.ok bytes
      ∧ q = mkQueueEntry env cand bytes := by
  intro cs
  induction cs with
  | nil =>
      intro pending h q hq
      simp only [buildPendingList, Except.ok.injEq] at h
      rw [← h] at hq
      simp at hq
  | cons cand rest ih =>
      intro pending h q hq
      unfold buildPendingList at h
      cases hfb : env.fileBytes cand.file_path with
      | error e => rw [hfb] at h; simp at h
      | ok bytes =>
          rw [hfb] at h
          cases ht : buildPendingList env rest with
          | error e => rw [ht] at h; simp at h
          | ok tail =>
              rw [ht] at h
              simp only [Except.ok.injEq] at h
              rw [← h] at hq
              rcases List.mem_cons.mp hq with rfl | hq
              · exact ⟨cand, List.mem_cons_self _ _, bytes, hfb, rfl⟩
              · rcases ih tail ht q hq with ⟨c2, hc2, b2, hb2, hq2⟩
                exact ⟨c2, List.mem_cons_of_mem _ hc2, b2, hb2, hq2⟩

/-- C9: every entry merged into `pending_uploads` by a run was either already
present beforehand, or derives from a discovered candidate with
`public_id = "cheese-collection/" ++ stem ++ "_" ++ shortHash(file bytes)`,
pipe-joined `key=value` context, comma-joined tags, and an absolute
`file://` URI as `file_path`. -/
theorem queue_entry_shape (env : AgentEnv) (st : AgentState) (cs : List Candidate)
    (h1 : env.scraperOk = true) (h2 : env.discovery = Except.ok cs) :
    ∀ e ∈ (run env st).state.pending_uploads,
      e ∈ st.pending_uploads ∨
      ∃ cand, cand ∈ cs ∧ ∃ bytes,
        env.fileBytes cand.file_path = Except.ok bytes
        ∧ e.file_path = "file://" ++ env.resolve cand.file_path
        ∧ e.public_id = "cheese-collection/" ++ pathStem cand.file_path ++ "_"
            ++ (env.md5hexBytes bytes).take 8
        ∧ e.tags = String.intercalate "," cand.tags
        ∧ e.context = String.intercalate "|"
            (cand.context.map fun kv => kv.1 ++ "=" ++ kv.2) := by
  intro e he
  unfold run at he
  rw [h1, h2] at he
  by_cases hemp : cs.isEmpty
  · simp only [hemp, if_pos, if_true] at he
    exact Or.inl he
  · cases hb : buildPendingList env cs with
    | error err =>
        simp only [hemp, hb, if_neg, not_false_iff, Bool.false_eq_true, if_true] at he
        exact Or.inl he
    | ok pending =>
        simp only [hemp, hb, if_neg, not_false_iff, Bool.false_eq_true, if_true] at he
        unfold mergeInto at he
        rcases mergeGo_mem pending st.pending_uploads
            (st.pending_uploads.map (·.file_path)) 0 e he with h | h
        · exact Or.inl h
        · rcases buildPendingList_mem env cs pending hb e h
            with ⟨cand, hcand, bytes, hbytes, rfl⟩
          exact Or.inr ⟨cand, hcand, bytes, hbytes, rfl, rfl, rfl, rfl⟩

theorem queue_entry_shape_witness :
    wEnv.scraperOk = true ∧ wEnv.discovery = Except.ok [wCand]
    ∧ ∀ e ∈ (run wEnv default_state).state.pending_uploads,
      e ∈ default_state.pending_uploads ∨
      ∃ cand, cand ∈ [wCand] ∧ ∃ bytes,
        wEnv.fileBytes cand.file_path = Except.ok bytes
        ∧ e.file_path = "file://" ++ wEnv.resolve cand.file_path
        ∧ e.public_id = "cheese-collection/" ++ pathStem cand.file_path ++ "_"
            ++ (wEnv.md5hexBytes bytes).take 8
        ∧ e.tags = String.intercalate "," cand.tags
        ∧ e.context = String.intercalate "|"
            (cand.context.map fun kv => kv.1 ++ "=" ++ kv.2) :=
  ⟨rfl, rfl, queue_entry_shape wEnv default_state [wCand] rfl rfl⟩

/-! ### Loading the state file -/

/-- C10: when the state file exists but cannot be read or parsed, the loader
returns the complete default state — zero counter, empty queue, empty daily
stats — discarding whatever the file held; per-key defaulting happens only on
a successful parse, where each present key is kept and each missing key is
filled from the default. -/
theorem load_discards_on_failure :
    load_agent_state true (Except.error ()) = default_state
    ∧ default_state
        = { total_images_scraped := 0, pending_uploads := [], daily_stats := [] }
    ∧ ∀ raw : RawState, load_agent_state true (Except.ok raw)
        = { total_images_scraped := raw.total_images_scraped.getD 0
            pending_uploads := raw.pending_uploads.getD []
            daily_stats := raw.daily_stats.getD [] } :=
  ⟨rfl, rfl, fun _ => rfl⟩

end Cheese
